import Mathlib

/-!
Verification of the message envelope / typed-message dispatch layer
(`message.go`, package `avs`).

The embedding mirrors the Go source:
* `Message` is the generic envelope: a string-to-string header map
  (modelled as an association list with first-match lookup; a missing key
  reads as the empty string, as a Go map read does) and an optional raw
  payload.  The raw payload is modelled as `RawPayload`: absent bytes
  (`nil` in Go), bytes that do not parse as JSON, or a parsed JSON value.
* Each of the ten variant structs (`ClearQueue`, `Play`, ...) embeds the
  underlying `Message` and a decoded payload struct.  `fill` in the source
  populates the payload via `json.Unmarshal`, ignoring the error; the
  per-variant `fill...` functions below spell out what `encoding/json`
  does on each payload struct: members are processed in document order,
  each member addresses a field by its key (exact match, else
  case-insensitive), a later assignment overwrites an earlier one, a
  wrong-typed member records an error that is swallowed and leaves the
  previous value, and a field never assigned to keeps its zero value
  (as does the whole struct for a missing, unparseable or non-object
  payload).
* `Message.Typed` is the dispatch switch, compiled as the same sequence of
  string comparisons as the Go `switch`.
* Go `float64` values are modelled exactly: a float is the rational number
  it denotes, and every arithmetic step of the source rounds its exact
  rational result with `fl`, IEEE-754 binary64 round-to-nearest, ties to
  even (normal range; the values in this development are all normal and
  far from overflow).  `time.Duration` is an integer count of nanoseconds,
  an int64 in Go: the one product a decoded wire value can overflow
  (in `Timeout()`) wraps with `wrap64`.
-/

namespace Avs

/-- JSON values carried by an envelope payload (numbers kept exact as
rationals; the float64 rounding that `encoding/json` performs is applied
at decode time). -/
inductive JVal where
  | null
  | bool (b : Bool)
  | num (q : Rat)
  | str (s : String)
  | arr (elems : List JVal)
  | obj (fields : List (String × JVal))

/-- The raw payload bytes of a `Message` (Go `json.RawMessage`): absent
(`nil`), present but not parseable as JSON, or parseable to a JSON value. -/
inductive RawPayload where
  | absent
  | malformed (bytes : String)
  | json (v : JVal)

/-- Go map read with first-match association-list lookup. -/
def hlookup : List (String × String) → String → Option String
  | [], _ => none
  | (k, v) :: rest, key => if key = k then some v else hlookup rest key

/-- Reading a missing key from a Go `map[string]string` yields `""`. -/
def headerGet (h : List (String × String)) (k : String) : String :=
  (hlookup h k).getD ""

/-- A general structure for contexts, events and directives
(struct `Message` in the source). -/
structure Message where
  Header : List (String × String)
  Payload : RawPayload

/-- Creates a Message suited for being used as a context value
(`NewContext`). -/
def NewContext (ns nm : String) : Message :=
  { Header := [("namespace", ns), ("name", nm)]
  , Payload := .absent }

/-- Creates a Message suited for being used as an event value
(`NewEvent`): the `dialogRequestId` key is added only when the supplied
value is non-empty. -/
def NewEvent (ns nm messageId dialogRequestId : String) : Message :=
  { Header :=
      if dialogRequestId ≠ "" then
        [("namespace", ns), ("name", nm), ("messageId", messageId),
         ("dialogRequestId", dialogRequestId)]
      else
        [("namespace", ns), ("name", nm), ("messageId", messageId)]
  , Payload := .absent }

/-- Returns the namespace and name as a single string
(method `String()` of `Message`, `fmt.Sprintf("%s.%s", ...)`). -/
def Message.String (m : Message) : String :=
  headerGet m.Header "namespace" ++ "." ++ headerGet m.Header "name"

/-! ## Exact model of Go float64 arithmetic -/

/-- Floor of a rational as an integer (kernel-friendly form). -/
def qfloor (q : Rat) : Int :=
  Int.fdiv q.num (q.den : Int)

/-- Round the fraction `n / d` (with `d > 0`) to the nearest natural
number, ties to even (the IEEE-754 default rounding used by Go float64
arithmetic). -/
def rneND (n d : Nat) : Nat :=
  let f := n / d
  let r := n % d
  if 2 * r < d then f
  else if d < 2 * r then f + 1
  else if f % 2 = 0 then f else f + 1

/-- Floor of the base-two logarithm of a positive natural number,
fuel-based structural recursion so that the kernel can evaluate it
(call as `lg2 n n`; the first argument is fuel and n is ample fuel). -/
def lg2 : Nat → Nat → Nat
  | 0, _ => 0
  | fuel + 1, n => if n < 2 then 0 else lg2 fuel (n / 2) + 1

/-- Floor of the base-two logarithm of the positive rational `n / d`. -/
def log2floor (n d : Nat) : Int :=
  let la := lg2 n n
  let lb := lg2 d d
  if d * 2 ^ la ≤ n * 2 ^ lb then (la : Int) - lb else (la : Int) - lb - 1

/-- Round an exact rational to the nearest binary64 value (normal range,
round to nearest, ties to even), returned as the rational it denotes:
the significand `q / 2^e` is scaled into `[2^52, 2^53)` and rounded to an
integer, all in natural-number arithmetic on numerator and denominator. -/
def fl (q : Rat) : Rat :=
  if q = 0 then 0
  else
    let n := q.num.natAbs
    let d := q.den
    let e : Int := log2floor n d - 52
    let v : Rat :=
      if 0 ≤ e then ((rneND n (d * 2 ^ e.toNat) * 2 ^ e.toNat : Nat) : Rat)
      else mkRat (rneND (n * 2 ^ (-e).toNat) d) (2 ^ (-e).toNat)
    if q < 0 then -v else v

/-- Go conversion of a float64 to an integer type truncates toward zero. -/
def f2i (q : Rat) : Int :=
  if 0 ≤ q then qfloor q else -(qfloor (-q))

/-! ## Durations -/

/-- Go `time.Duration`: a count of nanoseconds, held in an int64. -/
abbrev Duration := Int

/-- Go `time.Millisecond`. -/
def Millisecond : Duration := 1000000

/-- Two-complement wrap into int64, what Go integer multiplication does
on overflow (the literals are 2^63 and 2^64). -/
def wrap64 (x : Int) : Int :=
  (x + 9223372036854775808) % 18446744073709551616 - 9223372036854775808

/-- Method `Seconds()` of `time.Duration`, modelled as the float64
division `float64(d) / 1e9` with both the int-to-float conversion and
the division rounded.  The standard library computes the equivalent
split form `float64(sec) + float64(nsec)/1e9`; the two coincide at
every duration this development evaluates the function at. -/
def durSeconds (d : Duration) : Rat :=
  fl (fl ((d : Int) : Rat) / 1000000000)

/-! ## JSON payload decoding (what `fill` + `encoding/json` do) -/

/-- Key resolution of `encoding/json`: a member key addresses a struct
field by exact name/tag match, falling back to a case-insensitive
match.  Every payload struct here has at most one field per key up to
case, so the two-step resolution collapses to one case-insensitive
comparison (ASCII fold, matching these all-ASCII keys).  Members are
processed in document order and a later assignment to the same field
overwrites an earlier one; a matching member of the wrong type records
a type error that `fill` swallows, leaving the previous value in place.
This function returns the value of the last member addressing the key,
regardless of its type; it models the decoding of the opaque
`AudioItem` subobject. -/
def jfield : List (String × JVal) → String → Option JVal
  | [], _ => none
  | (k, v) :: rest, key =>
    match jfield rest key with
    | some w => some w
    | none => if k = key ∨ k.toLower = key.toLower then some v else none

/-- The last member addressing the key whose value is a JSON string
(later members override earlier ones; wrong-typed members leave the
previous value, their error being swallowed). -/
def jStrFieldAux : List (String × JVal) → String → Option String
  | [], _ => none
  | (k, v) :: rest, key =>
    match jStrFieldAux rest key with
    | some s => some s
    | none =>
      if k = key ∨ k.toLower = key.toLower then
        match v with
        | JVal.str s => some s
        | _ => none
      else none

/-- The last member addressing the key whose value is a JSON number. -/
def jNumFieldAux : List (String × JVal) → String → Option Rat
  | [], _ => none
  | (k, v) :: rest, key =>
    match jNumFieldAux rest key with
    | some q => some q
    | none =>
      if k = key ∨ k.toLower = key.toLower then
        match v with
        | JVal.num q => some q
        | _ => none
      else none

/-- The members of the payload, when the payload bytes parse to a JSON
object; `none` otherwise (absent bytes, unparseable bytes, or a
non-object value), in which case no field of the payload struct is
populated and the error from `json.Unmarshal` is ignored by `fill`. -/
def payloadObj : RawPayload → Option (List (String × JVal))
  | .json (JVal.obj fs) => some fs
  | _ => none

/-- Decode a string-typed struct field: the last successfully decoded
matching member wins; when no member supplies a string for the key
(missing member, or only wrong-typed members) the field keeps its zero
value, with the type errors swallowed by `fill`. -/
def jStrField (fs : List (String × JVal)) (key : String) : String :=
  (jStrFieldAux fs key).getD ""

/-- Decode a float64-typed struct field: the last matching JSON number
decodes to the nearest binary64 value, otherwise the field stays zero. -/
def jNumField (fs : List (String × JVal)) (key : String) : Rat :=
  match jNumFieldAux fs key with
  | some q => fl q
  | none => 0

/-! ## Variant schemas -/

/-- Modelled from the spec: `ClearBehavior` is an enumerated string type
defined outside `src/`. -/
abbrev ClearBehavior := String

/-- Modelled from the spec: `PlayBehavior` is an enumerated string type
defined outside `src/`. -/
abbrev PlayBehavior := String

/-- Modelled from the spec: `PlayerActivity` is an enumerated string type
defined outside `src/`. -/
abbrev PlayerActivity := String

/-- Modelled from the spec: `AudioItem` is an opaque nested structure
defined outside `src/`; it is modelled as the raw JSON subvalue it was
decoded from (`none` when the member was missing or the payload did not
decode). -/
structure AudioItem where
  raw : Option JVal := none

/-- An empty payload struct (Go `struct{}`). -/
structure EmptyPayload where

structure ClearQueuePayload where
  ClearBehavior : Avs.ClearBehavior

structure ExceptionPayload where
  Code : String
  Description : String

structure ExpectSpeechPayload where
  TimeoutInMilliseconds : Rat

structure PlayPayload where
  AudioItem : Avs.AudioItem
  PlayBehavior : Avs.PlayBehavior

structure PlaybackStatePayload where
  Token : String
  OffsetInMilliseconds : Rat
  PlayerActivity : Avs.PlayerActivity

structure RecognizePayload where
  Profile : String
  Format : String

structure SpeakPayload where
  Format : String
  URL : String

/-- The ClearQueue directive. -/
structure ClearQueue where
  Message : Avs.Message
  Payload : ClearQueuePayload

/-- The Exception message. -/
structure Exception where
  Message : Avs.Message
  Payload : ExceptionPayload

/-- The ExpectSpeech directive. -/
structure ExpectSpeech where
  Message : Avs.Message
  Payload : ExpectSpeechPayload

/-- The ExpectSpeechTimedOut event. -/
structure ExpectSpeechTimedOut where
  Message : Avs.Message
  Payload : EmptyPayload

/-- The Play directive. -/
structure Play where
  Message : Avs.Message
  Payload : PlayPayload

/-- The PlaybackState context. -/
structure PlaybackState where
  Message : Avs.Message
  Payload : PlaybackStatePayload

/-- The Recognize event. -/
structure Recognize where
  Message : Avs.Message
  Payload : RecognizePayload

/-- The Speak directive. -/
structure Speak where
  Message : Avs.Message
  Payload : SpeakPayload

/-- The Stop directive. -/
structure Stop where
  Message : Avs.Message
  Payload : EmptyPayload

/-- The SynchronizeState event. -/
structure SynchronizeState where
  Message : Avs.Message
  Payload : EmptyPayload

/-! ## fill: per-variant payload population (the reflective `fill` of the
source specialised to each payload struct) -/

def fillClearQueue (src : Message) : ClearQueue :=
  { Message := src
  , Payload :=
      match payloadObj src.Payload with
      | some fs => { ClearBehavior := jStrField fs "clearBehavior" }
      | none => { ClearBehavior := "" } }

def fillException (src : Message) : Exception :=
  { Message := src
  , Payload :=
      match payloadObj src.Payload with
      | some fs =>
        { Code := jStrField fs "code"
        , Description := jStrField fs "description" }
      | none => { Code := "", Description := "" } }

def fillExpectSpeech (src : Message) : ExpectSpeech :=
  { Message := src
  , Payload :=
      match payloadObj src.Payload with
      | some fs => { TimeoutInMilliseconds := jNumField fs "timeoutInMilliseconds" }
      | none => { TimeoutInMilliseconds := 0 } }

def fillExpectSpeechTimedOut (src : Message) : ExpectSpeechTimedOut :=
  { Message := src, Payload := {} }

def fillPlay (src : Message) : Play :=
  { Message := src
  , Payload :=
      match payloadObj src.Payload with
      | some fs =>
        { AudioItem := { raw := jfield fs "audioItem" }
        , PlayBehavior := jStrField fs "playBehavior" }
      | none => { AudioItem := {}, PlayBehavior := "" } }

def fillPlaybackState (src : Message) : PlaybackState :=
  { Message := src
  , Payload :=
      match payloadObj src.Payload with
      | some fs =>
        { Token := jStrField fs "token"
        , OffsetInMilliseconds := jNumField fs "offsetInMilliseconds"
        , PlayerActivity := jStrField fs "playerActivity" }
      | none => { Token := "", OffsetInMilliseconds := 0, PlayerActivity := "" } }

def fillRecognize (src : Message) : Recognize :=
  { Message := src
  , Payload :=
      match payloadObj src.Payload with
      | some fs =>
        { Profile := jStrField fs "profile"
        , Format := jStrField fs "format" }
      | none => { Profile := "", Format := "" } }

def fillSpeak (src : Message) : Speak :=
  { Message := src
  , Payload :=
      match payloadObj src.Payload with
      | some fs =>
        { Format := jStrField fs "format"
        , URL := jStrField fs "url" }
      | none => { Format := "", URL := "" } }

def fillStop (src : Message) : Stop :=
  { Message := src, Payload := {} }

def fillSynchronizeState (src : Message) : SynchronizeState :=
  { Message := src, Payload := {} }

/-! ## The TypedMessage union and dispatch -/

/-- The result of `Typed()`: one of the ten known variants, or the
generic `Message` fallback (the Go `TypedMessage` interface value). -/
inductive TypedMessage where
  | generic (m : Message)
  | clearQueue (v : ClearQueue)
  | play (v : Play)
  | playbackState (v : PlaybackState)
  | stop (v : Stop)
  | expectSpeech (v : ExpectSpeech)
  | expectSpeechTimedOut (v : ExpectSpeechTimedOut)
  | recognize (v : Recognize)
  | speak (v : Speak)
  | exception (v : Exception)
  | synchronizeState (v : SynchronizeState)

/-- The dynamic type of a `TypedMessage` value, as the type switch of a caller
observes it. -/
inductive Tag where
  | generic
  | clearQueue
  | play
  | playbackState
  | stop
  | expectSpeech
  | expectSpeechTimedOut
  | recognize
  | speak
  | exception
  | synchronizeState
deriving DecidableEq

def TypedMessage.tag : TypedMessage → Tag
  | .generic _ => .generic
  | .clearQueue _ => .clearQueue
  | .play _ => .play
  | .playbackState _ => .playbackState
  | .stop _ => .stop
  | .expectSpeech _ => .expectSpeech
  | .expectSpeechTimedOut _ => .expectSpeechTimedOut
  | .recognize _ => .recognize
  | .speak _ => .speak
  | .exception _ => .exception
  | .synchronizeState _ => .synchronizeState

/-- Method `GetMessage()`: the underlying `Message` (a variant exposes
its embedded envelope; the generic case is the envelope itself). -/
def TypedMessage.GetMessage : TypedMessage → Message
  | .generic m => m
  | .clearQueue v => v.Message
  | .play v => v.Message
  | .playbackState v => v.Message
  | .stop v => v.Message
  | .expectSpeech v => v.Message
  | .expectSpeechTimedOut v => v.Message
  | .recognize v => v.Message
  | .speak v => v.Message
  | .exception v => v.Message
  | .synchronizeState v => v.Message

/-- The registry table: the ten discriminator strings of the `switch` in
`Typed()` and the variant each one selects. -/
def registry : List (String × Tag) :=
  [ ("AudioPlayer.ClearQueue", .clearQueue)
  , ("AudioPlayer.Play", .play)
  , ("AudioPlayer.PlaybackState", .playbackState)
  , ("AudioPlayer.Stop", .stop)
  , ("SpeechRecognizer.ExpectSpeech", .expectSpeech)
  , ("SpeechRecognizer.ExpectSpeechTimedOut", .expectSpeechTimedOut)
  , ("SpeechRecognizer.Recognize", .recognize)
  , ("SpeechSynthesizer.Speak", .speak)
  , ("System.Exception", .exception)
  , ("System.SynchronizeState", .synchronizeState) ]

/-- Returns a more specific type for this context, event or directive
(method `Typed()`; a Go `switch` on `m.String()` is a sequence of string
comparisons in source order). -/
def Message.Typed (m : Message) : TypedMessage :=
  if m.String = "AudioPlayer.ClearQueue" then .clearQueue (fillClearQueue m)
  else if m.String = "AudioPlayer.Play" then .play (fillPlay m)
  else if m.String = "AudioPlayer.PlaybackState" then .playbackState (fillPlaybackState m)
  else if m.String = "AudioPlayer.Stop" then .stop (fillStop m)
  else if m.String = "SpeechRecognizer.ExpectSpeech" then .expectSpeech (fillExpectSpeech m)
  else if m.String = "SpeechRecognizer.ExpectSpeechTimedOut" then
    .expectSpeechTimedOut (fillExpectSpeechTimedOut m)
  else if m.String = "SpeechRecognizer.Recognize" then .recognize (fillRecognize m)
  else if m.String = "SpeechSynthesizer.Speak" then .speak (fillSpeak m)
  else if m.String = "System.Exception" then .exception (fillException m)
  else if m.String = "System.SynchronizeState" then
    .synchronizeState (fillSynchronizeState m)
  else .generic m

/-! ## Accessors and constructors of the variants -/

/-- Method `Timeout()` of `ExpectSpeech`:
`time.Duration(m.Payload.TimeoutInMilliseconds) * time.Millisecond`.
The multiplication is int64 arithmetic and wraps on overflow, which a
large decoded payload value can reach; the float-to-int conversion
itself is modelled for in-range values only (out-of-range conversion is
implementation-defined in Go). -/
def ExpectSpeech.Timeout (m : ExpectSpeech) : Duration :=
  wrap64 (f2i m.Payload.TimeoutInMilliseconds * Millisecond)

/-- Constructor `NewExpectSpeechTimedOut`. -/
def NewExpectSpeechTimedOut (messageId : String) : ExpectSpeechTimedOut :=
  { Message := NewEvent "SpeechRecognizer" "ExpectSpeechTimedOut" messageId ""
  , Payload := {} }

/-- Method `DialogRequestId()` of `Play`. -/
def Play.DialogRequestId (m : Play) : String :=
  headerGet m.Message.Header "dialogRequestId"

/-- Method `MessageId()` of `Play`. -/
def Play.MessageId (m : Play) : String :=
  headerGet m.Message.Header "messageId"

/-- Constructor `NewPlaybackState`: the offset is stored as
`offset.Seconds() * 1000`, a float64 product. -/
def NewPlaybackState (token : String) (offset : Duration)
    (activity : PlayerActivity) : PlaybackState :=
  { Message := NewContext "AudioPlayer" "PlaybackState"
  , Payload :=
      { Token := token
      , OffsetInMilliseconds := fl (durSeconds offset * 1000)
      , PlayerActivity := activity } }

/-- Method `Offset()` of `PlaybackState`:
`time.Duration(m.Payload.OffsetInMilliseconds) * time.Millisecond`. -/
def PlaybackState.Offset (m : PlaybackState) : Duration :=
  f2i m.Payload.OffsetInMilliseconds * Millisecond

/-- Constructor `NewRecognize` with its fixed default payload. -/
def NewRecognize (messageId dialogRequestId : String) : Recognize :=
  { Message := NewEvent "SpeechRecognizer" "Recognize" messageId dialogRequestId
  , Payload :=
      { Profile := "CLOSE_TALK"
      , Format := "AUDIO_L16_RATE_16000_CHANNELS_1" } }

/-- Method `ContentId()` of `Speak`: strict check for the literal scheme
tag "cid:" at the start of the URL (Go `strings.HasPrefix` compares the
leading bytes; Go `URL[4:]` drops them), empty string otherwise. -/
def Speak.ContentId (m : Speak) : String :=
  if !("cid:".data.isPrefixOf m.Payload.URL.data) then ""
  else ⟨m.Payload.URL.data.drop 4⟩

/-- Constructor `NewSynchronizeState`. -/
def NewSynchronizeState (messageId : String) : SynchronizeState :=
  { Message := NewEvent "System" "SynchronizeState" messageId ""
  , Payload := {} }

/-- All payload fields of a typed value are at their zero values (the
state `fill` leaves them in when nothing decodes). -/
def TypedMessage.payloadIsDefault : TypedMessage → Prop
  | .generic _ => True
  | .clearQueue v => v.Payload.ClearBehavior = ""
  | .play v => v.Payload.AudioItem.raw = none ∧ v.Payload.PlayBehavior = ""
  | .playbackState v =>
      v.Payload.Token = "" ∧ v.Payload.OffsetInMilliseconds = 0 ∧
      v.Payload.PlayerActivity = ""
  | .stop _ => True
  | .expectSpeech v => v.Payload.TimeoutInMilliseconds = 0
  | .expectSpeechTimedOut _ => True
  | .recognize v => v.Payload.Profile = "" ∧ v.Payload.Format = ""
  | .speak v => v.Payload.Format = "" ∧ v.Payload.URL = ""
  | .exception v => v.Payload.Code = "" ∧ v.Payload.Description = ""
  | .synchronizeState _ => True

/-- Projection onto the ExpectSpeech case: the `Timeout()` accessor
applied to the variant, when the value is an ExpectSpeech variant. -/
def TypedMessage.timeoutNs : TypedMessage → Option Duration
  | .expectSpeech v => some v.Timeout
  | _ => none

/-- Is this JSON value a string? -/
def JVal.isStr : JVal → Bool
  | .str _ => true
  | _ => false

/-- Is this JSON value a number? -/
def JVal.isNum : JVal → Bool
  | .num _ => true
  | _ => false

/-- No member of the object supplies a string for this field key: every
member addressing the key (case-insensitively, as `encoding/json`
resolves keys) carries a non-string value. -/
def noStr (fs : List (String × JVal)) (key : String) : Prop :=
  ∀ kv ∈ fs, kv.1.toLower = key.toLower → kv.2.isStr = false

/-- No member of the object supplies a number for this field key. -/
def noNum (fs : List (String × JVal)) (key : String) : Prop :=
  ∀ kv ∈ fs, kv.1.toLower = key.toLower → kv.2.isNum = false

/-- No member of the object addresses this field key at all. -/
def noKey (fs : List (String × JVal)) (key : String) : Prop :=
  ∀ kv ∈ fs, ¬ kv.1.toLower = key.toLower

/-- Partial decode: in a typed value decoded from the object members
`fs`, every payload field for which `fs` supplies no value of the right
type is at its zero value.  One case per variant, one conjunct per
field of its payload struct. -/
def fieldsZeroWhenUndecodable : TypedMessage → List (String × JVal) → Prop
  | .generic _, _ => True
  | .clearQueue v, fs =>
      noStr fs "clearBehavior" → v.Payload.ClearBehavior = ""
  | .play v, fs =>
      (noKey fs "audioItem" → v.Payload.AudioItem.raw = none) ∧
      (noStr fs "playBehavior" → v.Payload.PlayBehavior = "")
  | .playbackState v, fs =>
      (noStr fs "token" → v.Payload.Token = "") ∧
      (noNum fs "offsetInMilliseconds" → v.Payload.OffsetInMilliseconds = 0) ∧
      (noStr fs "playerActivity" → v.Payload.PlayerActivity = "")
  | .stop _, _ => True
  | .expectSpeech v, fs =>
      noNum fs "timeoutInMilliseconds" → v.Payload.TimeoutInMilliseconds = 0
  | .expectSpeechTimedOut _, _ => True
  | .recognize v, fs =>
      (noStr fs "profile" → v.Payload.Profile = "") ∧
      (noStr fs "format" → v.Payload.Format = "")
  | .speak v, fs =>
      (noStr fs "format" → v.Payload.Format = "") ∧
      (noStr fs "url" → v.Payload.URL = "")
  | .exception v, fs =>
      (noStr fs "code" → v.Payload.Code = "") ∧
      (noStr fs "description" → v.Payload.Description = "")
  | .synchronizeState _, _ => True

/-! ## Theorems -/

set_option maxRecDepth 2400

/-- Evaluation lemma for the float64 rounding of a nonnegative rational:
with the numerator, denominator, exponent and rounded value supplied and
checked step by step, fl computes as stated. -/
theorem fl_eq_of (q : Rat) (n d : Nat) (e : Int) (v : Rat)
    (hq : ¬ q = 0) (hqn : ¬ q < 0)
    (hn : q.num.natAbs = n) (hd : q.den = d)
    (he : log2floor n d - 52 = e)
    (hv : (if 0 ≤ e then ((rneND n (d * 2 ^ e.toNat) * 2 ^ e.toNat : Nat) : Rat)
           else mkRat (rneND (n * 2 ^ (-e).toNat) d) (2 ^ (-e).toNat)) = v) :
    fl q = v := by
  unfold fl
  rw [if_neg hq]
  simp only [hn, hd, he]
  rw [if_neg hqn]
  exact hv

/-- Floor of an integer-valued rational is that integer. -/
theorem qfloor_intCast (k : Int) : qfloor ((k : Rat)) = k := by
  simp [qfloor]

/-- Go float64-to-int conversion is the identity on integer values. -/
theorem f2i_intCast (k : Int) : f2i ((k : Rat)) = k := by
  unfold f2i
  by_cases h : (0 : Rat) ≤ (k : Rat)
  · rw [if_pos h, qfloor_intCast]
  · rw [if_neg h]
    have hneg : (-(k : Rat)) = ((-k : Int) : Rat) := by push_cast; ring
    rw [hneg, qfloor_intCast, neg_neg]

/-- C9: For every Envelope, the value returned by typed() wraps exactly
the input Envelope: GetMessage on the result returns the very same
Envelope (header and payload identical), in every dispatch branch. -/
theorem typed_getMessage_is_input (m : Message) : (m.Typed).GetMessage = m := by
  unfold Message.Typed
  repeat' split
  all_goals rfl

/-- C2: typed() on an Envelope whose discriminator is absent from the
registry table returns the original Envelope unchanged, typed as the
generic representation. -/
theorem typed_unknown_discriminator_is_identity (m : Message)
    (h : ∀ p ∈ registry, m.String ≠ p.1) : m.Typed = .generic m := by
  simp only [registry, List.forall_mem_cons, List.forall_mem_nil, and_true] at h
  obtain ⟨h1, h2, h3, h4, h5, h6, h7, h8, h9, h10⟩ := h
  simp [Message.Typed, h1, h2, h3, h4, h5, h6, h7, h8, h9, h10]

/-- Witness for C2 at a concrete unregistered Envelope. -/
theorem typed_unknown_discriminator_is_identity_witness :
    Message.Typed ⟨[("namespace", "Media"), ("name", "Pause")], .absent⟩ =
      .generic ⟨[("namespace", "Media"), ("name", "Pause")], .absent⟩ :=
  typed_unknown_discriminator_is_identity _ (by decide)

/-- C1: typed() on an Envelope whose discriminator is one of the ten
entries of the registry table returns the corresponding Variant, never
the generic fallback. -/
theorem typed_registered_discriminator_yields_variant (m : Message)
    (d : String) (t : Tag) (hmem : (d, t) ∈ registry) (hd : m.String = d) :
    (m.Typed).tag = t ∧ t ≠ Tag.generic := by
  simp only [registry, List.mem_cons, List.not_mem_nil, or_false,
    Prod.mk.injEq] at hmem
  rcases hmem with h | h | h | h | h | h | h | h | h | h <;>
    obtain ⟨rfl, rfl⟩ := h <;>
    exact ⟨by simp [Message.Typed, hd, TypedMessage.tag], by decide⟩

/-- Witness for C1 at a concrete registered Envelope. -/
theorem typed_registered_discriminator_yields_variant_witness :
    (Message.Typed ⟨[("namespace", "System"), ("name", "Exception")], .absent⟩).tag
      = Tag.exception ∧ Tag.exception ≠ Tag.generic :=
  typed_registered_discriminator_yields_variant _ "System.Exception" Tag.exception
    (by decide) rfl

/-- C6: NewEvent maps namespace, name and messageId to the given values,
adds a dialogRequestId key exactly when the supplied value is non-empty,
and adds no other key. -/
theorem newEvent_header_fields (ns nm mid dlg : String) :
    hlookup (NewEvent ns nm mid dlg).Header "namespace" = some ns ∧
    hlookup (NewEvent ns nm mid dlg).Header "name" = some nm ∧
    hlookup (NewEvent ns nm mid dlg).Header "messageId" = some mid ∧
    hlookup (NewEvent ns nm mid dlg).Header "dialogRequestId" =
      (if dlg = "" then none else some dlg) ∧
    (∀ k, k ≠ "namespace" → k ≠ "name" → k ≠ "messageId" →
      k ≠ "dialogRequestId" → hlookup (NewEvent ns nm mid dlg).Header k = none) := by
  by_cases hd : dlg = ""
  · exact ⟨by simp [NewEvent, hd, hlookup], by simp [NewEvent, hd, hlookup],
      by simp [NewEvent, hd, hlookup], by simp [NewEvent, hd, hlookup],
      fun k k1 k2 k3 k4 => by simp [NewEvent, hd, hlookup, k1, k2, k3, k4]⟩
  · exact ⟨by simp [NewEvent, hd, hlookup], by simp [NewEvent, hd, hlookup],
      by simp [NewEvent, hd, hlookup], by simp [NewEvent, hd, hlookup],
      fun k k1 k2 k3 k4 => by simp [NewEvent, hd, hlookup, k1, k2, k3, k4]⟩

/-- Witness for C6 at the two concrete events of the spec. -/
theorem newEvent_header_fields_witness :
    hlookup (NewEvent "System" "SynchronizeState" "m1" "").Header "dialogRequestId"
      = none ∧
    hlookup (NewEvent "SpeechRecognizer" "Recognize" "m2" "d9").Header "dialogRequestId"
      = some "d9" := by
  constructor
  · have h := newEvent_header_fields "System" "SynchronizeState" "m1" ""
    simpa using h.2.2.2.1
  · have h := newEvent_header_fields "SpeechRecognizer" "Recognize" "m2" "d9"
    simpa using h.2.2.2.1

/-- Lists are Boolean prefixes of themselves extended on the right. -/
theorem isPrefixOf_append_self {α} [BEq α] [LawfulBEq α] (p r : List α) :
    p.isPrefixOf (p ++ r) = true := by
  induction p with
  | nil => simp [List.isPrefixOf]
  | cons a t ih => simp [List.isPrefixOf, ih]

/-- A list with a Boolean prefix decomposes as that prefix and a rest. -/
theorem exists_append_of_isPrefixOf {α} [BEq α] [LawfulBEq α] :
    ∀ (p l : List α), p.isPrefixOf l = true → ∃ t, l = p ++ t := by
  intro p
  induction p with
  | nil => exact fun l _ => ⟨l, rfl⟩
  | cons a as ih =>
    intro l h
    cases l with
    | nil => simp [List.isPrefixOf] at h
    | cons b bs =>
      simp only [List.isPrefixOf, Bool.and_eq_true, beq_iff_eq] at h
      obtain ⟨hab, hpre⟩ := h
      obtain ⟨t, ht⟩ := ih bs hpre
      subst hab
      exact ⟨t, by rw [ht]; rfl⟩

/-- A url on whose character list "cid:" is not a Boolean prefix is not
of the form "cid:" followed by a remainder. -/
theorem ne_cid_of_not_isPrefixOf (url : String)
    (hp : ("cid:".data.isPrefixOf url.data) = false) :
    ∀ rest, url ≠ "cid:" ++ rest := by
  intro rest h
  rw [h, show ("cid:" ++ rest).data = "cid:".data ++ rest.data from rfl,
    isPrefixOf_append_self] at hp
  cases hp

/-- C7: ContentId() returns the remainder of the url after the literal
prefix "cid:" when the url starts with it, and the empty string when the
url does not start with it. -/
theorem speak_contentId_cid_scheme (m0 : Message) (fmt : String) :
    (∀ rest : String, Speak.ContentId ⟨m0, ⟨fmt, "cid:" ++ rest⟩⟩ = rest) ∧
    (∀ url : String, (∀ rest, url ≠ "cid:" ++ rest) →
      Speak.ContentId ⟨m0, ⟨fmt, url⟩⟩ = "") := by
  constructor
  · intro rest
    show (if !("cid:".data.isPrefixOf ("cid:" ++ rest).data) then ""
          else String.mk (("cid:" ++ rest).data.drop 4)) = rest
    rw [show ("cid:" ++ rest).data = "cid:".data ++ rest.data from rfl,
      isPrefixOf_append_self]
    rw [show (4 : Nat) = "cid:".data.length from rfl, List.drop_left]
    rfl
  · intro url hne
    by_cases hp : ("cid:".data.isPrefixOf url.data) = true
    · exfalso
      obtain ⟨t, ht⟩ := exists_append_of_isPrefixOf _ _ hp
      exact hne (String.mk t) (congrArg String.mk ht)
    · show (if !("cid:".data.isPrefixOf url.data) then ""
            else String.mk (url.data.drop 4)) = ""
      simp [hp]

/-- Witness for C7 at the two concrete urls of the spec. -/
theorem speak_contentId_cid_scheme_witness :
    Speak.ContentId ⟨⟨[], .absent⟩, ⟨"AUDIO_MPEG", "cid:abc123"⟩⟩ = "abc123" ∧
    Speak.ContentId ⟨⟨[], .absent⟩, ⟨"AUDIO_MPEG", "https://x/y"⟩⟩ = "" := by
  constructor
  · exact (speak_contentId_cid_scheme ⟨[], .absent⟩ "AUDIO_MPEG").1 "abc123"
  · exact (speak_contentId_cid_scheme ⟨[], .absent⟩ "AUDIO_MPEG").2 "https://x/y"
      (ne_cid_of_not_isPrefixOf _ (by decide))

/-- C8: the discriminator String() is always the namespace value, a dot,
and the name value; with both header keys absent it is "." and no error
occurs. -/
theorem message_discriminator_format (m : Message) :
    m.String = headerGet m.Header "namespace" ++ "." ++ headerGet m.Header "name" ∧
    (hlookup m.Header "namespace" = none → hlookup m.Header "name" = none →
      m.String = ".") := by
  refine ⟨rfl, fun h1 h2 => ?_⟩
  simp [Message.String, headerGet, h1, h2]

/-- Witness for C8 at an Envelope with an empty header. -/
theorem message_discriminator_format_witness :
    Message.String ⟨[], .absent⟩ = "." :=
  (message_discriminator_format ⟨[], .absent⟩).2 rfl rfl

/-- When no member supplies a string for the key, the string decoder
yields nothing. -/
theorem jStrFieldAux_eq_none_of_noStr (key : String) :
    ∀ fs : List (String × JVal), noStr fs key → jStrFieldAux fs key = none
  | [], _ => rfl
  | (k, v) :: rest, hn => by
    have hrest := jStrFieldAux_eq_none_of_noStr key rest
      (fun kv hkv hk => hn kv (List.mem_cons_of_mem _ hkv) hk)
    simp only [jStrFieldAux, hrest]
    by_cases hk : k = key ∨ k.toLower = key.toLower
    · rw [if_pos hk]
      have hkl : k.toLower = key.toLower := hk.elim (fun he => by rw [he]) id
      have hv := hn (k, v) (List.mem_cons_self _ _) hkl
      cases v <;> simp_all [JVal.isStr]
    · rw [if_neg hk]

/-- A string field with no decodable member stays at its zero value. -/
theorem jStrField_eq_empty_of_noStr (fs : List (String × JVal))
    (key : String) (hn : noStr fs key) : jStrField fs key = "" := by
  unfold jStrField
  rw [jStrFieldAux_eq_none_of_noStr key fs hn]
  rfl

/-- When no member supplies a number for the key, the number decoder
yields nothing. -/
theorem jNumFieldAux_eq_none_of_noNum (key : String) :
    ∀ fs : List (String × JVal), noNum fs key → jNumFieldAux fs key = none
  | [], _ => rfl
  | (k, v) :: rest, hn => by
    have hrest := jNumFieldAux_eq_none_of_noNum key rest
      (fun kv hkv hk => hn kv (List.mem_cons_of_mem _ hkv) hk)
    simp only [jNumFieldAux, hrest]
    by_cases hk : k = key ∨ k.toLower = key.toLower
    · rw [if_pos hk]
      have hkl : k.toLower = key.toLower := hk.elim (fun he => by rw [he]) id
      have hv := hn (k, v) (List.mem_cons_self _ _) hkl
      cases v <;> simp_all [JVal.isNum]
    · rw [if_neg hk]

/-- A float64 field with no decodable member stays at its zero value. -/
theorem jNumField_eq_zero_of_noNum (fs : List (String × JVal))
    (key : String) (hn : noNum fs key) : jNumField fs key = 0 := by
  unfold jNumField
  rw [jNumFieldAux_eq_none_of_noNum key fs hn]

/-- A key addressed by no member decodes to nothing. -/
theorem jfield_eq_none_of_noKey (key : String) :
    ∀ fs : List (String × JVal), noKey fs key → jfield fs key = none
  | [], _ => rfl
  | (k, v) :: rest, hn => by
    have hrest := jfield_eq_none_of_noKey key rest
      (fun kv hkv => hn kv (List.mem_cons_of_mem _ hkv))
    simp only [jfield, hrest]
    rw [if_neg (fun hor => hn (k, v) (List.mem_cons_self _ _)
      (hor.elim (fun he => by rw [he]) id))]

/-- C3: typed() on an Envelope with any registered discriminator never
raises or errors, whatever the payload bytes: it returns the
corresponding Variant wrapping the unchanged Envelope (raw payload
bytes still inspectable); when the payload is absent, unparseable or
not a JSON object, every payload field of every variant is at its zero
value (total decode failure); and when the payload is an object, every
field of the selected variant for which the object supplies no value of
the right type is left at its zero value (partial decode). -/
theorem typed_undecodable_payload_fields_zero
    (h : List (String × String)) (p : RawPayload) (d : String) (t : Tag)
    (hmem : (d, t) ∈ registry) (hd : Message.String ⟨h, p⟩ = d) :
    (Message.Typed ⟨h, p⟩).tag = t ∧
    (Message.Typed ⟨h, p⟩).GetMessage = ⟨h, p⟩ ∧
    (payloadObj p = none → (Message.Typed ⟨h, p⟩).payloadIsDefault) ∧
    (∀ fs, p = RawPayload.json (JVal.obj fs) →
      fieldsZeroWhenUndecodable (Message.Typed ⟨h, p⟩) fs) := by
  simp only [registry, List.mem_cons, List.not_mem_nil, or_false,
    Prod.mk.injEq] at hmem
  rcases hmem with hm | hm | hm | hm | hm | hm | hm | hm | hm | hm <;>
    obtain ⟨rfl, rfl⟩ := hm
  · have hT : Message.Typed ⟨h, p⟩ = .clearQueue (fillClearQueue ⟨h, p⟩) := by
      simp [Message.Typed, hd]
    refine ⟨by simp [hT, TypedMessage.tag],
      by simp [hT, TypedMessage.GetMessage, fillClearQueue],
      fun hnone => ?_, fun fs hp => ?_⟩
    · simp [hT, TypedMessage.payloadIsDefault, fillClearQueue, hnone]
    · subst hp
      rw [hT]
      simp only [fieldsZeroWhenUndecodable, fillClearQueue, payloadObj]
      exact fun hn => jStrField_eq_empty_of_noStr fs "clearBehavior" hn
  · have hT : Message.Typed ⟨h, p⟩ = .play (fillPlay ⟨h, p⟩) := by
      simp [Message.Typed, hd]
    refine ⟨by simp [hT, TypedMessage.tag],
      by simp [hT, TypedMessage.GetMessage, fillPlay],
      fun hnone => ?_, fun fs hp => ?_⟩
    · simp [hT, TypedMessage.payloadIsDefault, fillPlay, hnone]
    · subst hp
      rw [hT]
      simp only [fieldsZeroWhenUndecodable, fillPlay, payloadObj]
      exact ⟨fun hn => jfield_eq_none_of_noKey "audioItem" fs hn,
        fun hn => jStrField_eq_empty_of_noStr fs "playBehavior" hn⟩
  · have hT : Message.Typed ⟨h, p⟩ = .playbackState (fillPlaybackState ⟨h, p⟩) := by
      simp [Message.Typed, hd]
    refine ⟨by simp [hT, TypedMessage.tag],
      by simp [hT, TypedMessage.GetMessage, fillPlaybackState],
      fun hnone => ?_, fun fs hp => ?_⟩
    · simp [hT, TypedMessage.payloadIsDefault, fillPlaybackState, hnone]
    · subst hp
      rw [hT]
      simp only [fieldsZeroWhenUndecodable, fillPlaybackState, payloadObj]
      exact ⟨fun hn => jStrField_eq_empty_of_noStr fs "token" hn,
        fun hn => jNumField_eq_zero_of_noNum fs "offsetInMilliseconds" hn,
        fun hn => jStrField_eq_empty_of_noStr fs "playerActivity" hn⟩
  · have hT : Message.Typed ⟨h, p⟩ = .stop (fillStop ⟨h, p⟩) := by
      simp [Message.Typed, hd]
    exact ⟨by simp [hT, TypedMessage.tag],
      by simp [hT, TypedMessage.GetMessage, fillStop],
      fun _ => by rw [hT]; trivial, fun fs hp => by rw [hT]; trivial⟩
  · have hT : Message.Typed ⟨h, p⟩ = .expectSpeech (fillExpectSpeech ⟨h, p⟩) := by
      simp [Message.Typed, hd]
    refine ⟨by simp [hT, TypedMessage.tag],
      by simp [hT, TypedMessage.GetMessage, fillExpectSpeech],
      fun hnone => ?_, fun fs hp => ?_⟩
    · simp [hT, TypedMessage.payloadIsDefault, fillExpectSpeech, hnone]
    · subst hp
      rw [hT]
      simp only [fieldsZeroWhenUndecodable, fillExpectSpeech, payloadObj]
      exact fun hn => jNumField_eq_zero_of_noNum fs "timeoutInMilliseconds" hn
  · have hT : Message.Typed ⟨h, p⟩
        = .expectSpeechTimedOut (fillExpectSpeechTimedOut ⟨h, p⟩) := by
      simp [Message.Typed, hd]
    exact ⟨by simp [hT, TypedMessage.tag],
      by simp [hT, TypedMessage.GetMessage, fillExpectSpeechTimedOut],
      fun _ => by rw [hT]; trivial, fun fs hp => by rw [hT]; trivial⟩
  · have hT : Message.Typed ⟨h, p⟩ = .recognize (fillRecognize ⟨h, p⟩) := by
      simp [Message.Typed, hd]
    refine ⟨by simp [hT, TypedMessage.tag],
      by simp [hT, TypedMessage.GetMessage, fillRecognize],
      fun hnone => ?_, fun fs hp => ?_⟩
    · simp [hT, TypedMessage.payloadIsDefault, fillRecognize, hnone]
    · subst hp
      rw [hT]
      simp only [fieldsZeroWhenUndecodable, fillRecognize, payloadObj]
      exact ⟨fun hn => jStrField_eq_empty_of_noStr fs "profile" hn,
        fun hn => jStrField_eq_empty_of_noStr fs "format" hn⟩
  · have hT : Message.Typed ⟨h, p⟩ = .speak (fillSpeak ⟨h, p⟩) := by
      simp [Message.Typed, hd]
    refine ⟨by simp [hT, TypedMessage.tag],
      by simp [hT, TypedMessage.GetMessage, fillSpeak],
      fun hnone => ?_, fun fs hp => ?_⟩
    · simp [hT, TypedMessage.payloadIsDefault, fillSpeak, hnone]
    · subst hp
      rw [hT]
      simp only [fieldsZeroWhenUndecodable, fillSpeak, payloadObj]
      exact ⟨fun hn => jStrField_eq_empty_of_noStr fs "format" hn,
        fun hn => jStrField_eq_empty_of_noStr fs "url" hn⟩
  · have hT : Message.Typed ⟨h, p⟩ = .exception (fillException ⟨h, p⟩) := by
      simp [Message.Typed, hd]
    refine ⟨by simp [hT, TypedMessage.tag],
      by simp [hT, TypedMessage.GetMessage, fillException],
      fun hnone => ?_, fun fs hp => ?_⟩
    · simp [hT, TypedMessage.payloadIsDefault, fillException, hnone]
    · subst hp
      rw [hT]
      simp only [fieldsZeroWhenUndecodable, fillException, payloadObj]
      exact ⟨fun hn => jStrField_eq_empty_of_noStr fs "code" hn,
        fun hn => jStrField_eq_empty_of_noStr fs "description" hn⟩
  · have hT : Message.Typed ⟨h, p⟩
        = .synchronizeState (fillSynchronizeState ⟨h, p⟩) := by
      simp [Message.Typed, hd]
    exact ⟨by simp [hT, TypedMessage.tag],
      by simp [hT, TypedMessage.GetMessage, fillSynchronizeState],
      fun _ => by rw [hT]; trivial, fun fs hp => by rw [hT]; trivial⟩

/-- Witness for C3 at the concrete malformed payload of the spec, an
Exception payload whose code member is the number 123. -/
theorem typed_undecodable_payload_fields_zero_witness :
    (Message.Typed ⟨[("namespace", "System"), ("name", "Exception")],
        .json (.obj [("code", .num 123)])⟩).tag = Tag.exception ∧
    (Message.Typed ⟨[("namespace", "System"), ("name", "Exception")],
        .json (.obj [("code", .num 123)])⟩).GetMessage
      = ⟨[("namespace", "System"), ("name", "Exception")],
        .json (.obj [("code", .num 123)])⟩ ∧
    fieldsZeroWhenUndecodable
      (Message.Typed ⟨[("namespace", "System"), ("name", "Exception")],
        .json (.obj [("code", .num 123)])⟩) [("code", JVal.num 123)] := by
  have hc := typed_undecodable_payload_fields_zero
    [("namespace", "System"), ("name", "Exception")]
    (.json (.obj [("code", .num 123)])) "System.Exception" Tag.exception
    (by decide) rfl
  exact ⟨hc.1, hc.2.1, hc.2.2.2 _ rfl⟩

/-- C10: typed() on an Envelope with a registered discriminator and an
absent (nil) payload still returns the corresponding Variant, with every
payload field at its zero value. -/
theorem typed_absent_payload_zero_values (m : Message) (d : String) (t : Tag)
    (hmem : (d, t) ∈ registry) (hd : m.String = d) (hp : m.Payload = .absent) :
    (m.Typed).tag = t ∧ (m.Typed).payloadIsDefault := by
  simp only [registry, List.mem_cons, List.not_mem_nil, or_false,
    Prod.mk.injEq] at hmem
  rcases hmem with h | h | h | h | h | h | h | h | h | h <;>
    obtain ⟨rfl, rfl⟩ := h <;>
    refine ⟨by simp [Message.Typed, hd, TypedMessage.tag], ?_⟩ <;>
    simp [Message.Typed, hd, TypedMessage.payloadIsDefault, hp,
      fillClearQueue, fillPlay, fillPlaybackState, fillStop, fillExpectSpeech,
      fillExpectSpeechTimedOut, fillRecognize, fillSpeak, fillException,
      fillSynchronizeState, payloadObj]

/-- Witness for C10 at a concrete PlaybackState Envelope without payload. -/
theorem typed_absent_payload_zero_values_witness :
    (Message.Typed ⟨[("namespace", "AudioPlayer"), ("name", "PlaybackState")],
        .absent⟩).tag = Tag.playbackState ∧
    (Message.Typed ⟨[("namespace", "AudioPlayer"), ("name", "PlaybackState")],
        .absent⟩).payloadIsDefault :=
  typed_absent_payload_zero_values _ "AudioPlayer.PlaybackState"
    Tag.playbackState (by decide) rfl rfl

/-- Counterexample to C4: a payload value of 5000.5 milliseconds (exactly
representable in float64, here mkRat 10001 2) yields a Timeout() of
5000000000 ns, while the duration the payload value denotes is
5000500000 ns: the conversion rounds away the half millisecond. -/
theorem expectSpeech_timeout_truncates_half_millisecond :
    (Message.Typed ⟨[("namespace", "SpeechRecognizer"), ("name", "ExpectSpeech")],
        .json (.obj [("timeoutInMilliseconds", .num (mkRat 10001 2))])⟩).timeoutNs
      = some 5000000000 ∧
    mkRat 10001 2 * 1000000 = (5000500000 : Rat) ∧
    (5000000000 : Int) ≠ 5000500000 := by
  refine ⟨?_, ?_, by decide⟩
  · have hfl : fl (mkRat 10001 2) = mkRat 10001 2 :=
      fl_eq_of _ 10001 2 (-40) _ (by decide) (by decide) (by decide)
        (by decide) (by decide) (by decide)
    have hT : (Message.Typed ⟨[("namespace", "SpeechRecognizer"),
          ("name", "ExpectSpeech")],
          .json (.obj [("timeoutInMilliseconds", .num (mkRat 10001 2))])⟩).timeoutNs
        = some (wrap64 (f2i (fl (mkRat 10001 2)) * Millisecond)) := rfl
    rw [hT, hfl]
    decide
  · rw [Rat.mkRat_eq_div]
    norm_num

/-- C4 amended: Timeout() truncates the millisecond value toward zero
to a whole number of milliseconds and multiplies by one million in
int64 arithmetic; for whole-number payload values whose nanosecond
product fits in int64 the conversion is exact, in particular a payload
of 5000 milliseconds becomes exactly 5 seconds (5000000000 ns), while a
whole-number payload of 10^13 milliseconds overflows the int64 product
and wraps to -8446744073709551616 ns. -/
theorem expectSpeech_timeout_integral_in_range_exact (m0 : Message) :
    (∀ n : Int, -9223372036854775808 ≤ n * 1000000 →
      n * 1000000 < 9223372036854775808 →
      ExpectSpeech.Timeout ⟨m0, ⟨(n : Rat)⟩⟩ = n * Millisecond) ∧
    ExpectSpeech.Timeout ⟨m0, ⟨((5000 : Int) : Rat)⟩⟩ = 5000000000 ∧
    ExpectSpeech.Timeout ⟨m0, ⟨((10000000000000 : Int) : Rat)⟩⟩
      = -8446744073709551616 := by
  refine ⟨fun n hlo hhi => ?_, ?_, ?_⟩
  · show wrap64 (f2i ((n : Rat)) * Millisecond) = n * Millisecond
    rw [f2i_intCast]
    show wrap64 (n * 1000000) = n * 1000000
    unfold wrap64
    omega
  · show wrap64 (f2i (((5000 : Int) : Rat)) * Millisecond) = 5000000000
    rw [f2i_intCast]
    decide
  · show wrap64 (f2i (((10000000000000 : Int) : Rat)) * Millisecond)
      = -8446744073709551616
    rw [f2i_intCast]
    decide

/-- Witness for the amended C4 at the in-range payload 5000 ms of the
spec. -/
theorem expectSpeech_timeout_integral_in_range_exact_witness :
    -9223372036854775808 ≤ (5000 : Int) * 1000000 ∧
    (5000 : Int) * 1000000 < 9223372036854775808 ∧
    ExpectSpeech.Timeout ⟨⟨[], .absent⟩, ⟨((5000 : Int) : Rat)⟩⟩
      = 5000 * Millisecond :=
  ⟨by decide, by decide,
    (expectSpeech_timeout_integral_in_range_exact ⟨[], .absent⟩).1 5000
      (by decide) (by decide)⟩

/-- Counterexample to C5: the whole-millisecond duration 1001 ms reads
back as 1000 ms after makePlaybackState and offset(), because
float64(1001000000)/1e9*1000 rounds to just below 1001 and the final
conversion truncates. -/
theorem playbackState_roundtrip_drops_a_millisecond :
    (NewPlaybackState "tok" (1001 * Millisecond) "PLAYING").Offset
      = 1000 * Millisecond ∧
    (1000 * Millisecond : Int) ≠ 1001 * Millisecond := by
  refine ⟨?_, by decide⟩
  have e1 : fl (((1001 * Millisecond : Int) : Rat)) = ((1001 * Millisecond : Int) : Rat) :=
    fl_eq_of _ 1001000000 1 (-23) _ (by decide) (by decide) (by decide)
      (by decide) (by decide) (by decide)
  have ediv : ((1001 * Millisecond : Int) : Rat) / 1000000000 = mkRat 1001 1000 := by
    rw [Rat.mkRat_eq_div]
    push_cast [Millisecond]
    norm_num
  have e2 : fl (mkRat 1001 1000) = mkRat 2254051613498933 2251799813685248 :=
    fl_eq_of _ 1001 1000 (-52) _ (by decide) (by decide) (by decide)
      (by decide) (by decide) (by decide)
  have e3 : durSeconds (1001 * Millisecond)
      = mkRat 2254051613498933 2251799813685248 := by
    unfold durSeconds
    rw [e1, ediv, e2]
  have e4 : mkRat 2254051613498933 2251799813685248 * 1000
      = mkRat 281756451687366625 281474976710656 := by
    rw [Rat.mkRat_eq_div, Rat.mkRat_eq_div]
    norm_num
  have e5 : fl (mkRat 281756451687366625 281474976710656)
      = mkRat 8804889115230207 8796093022208 :=
    fl_eq_of _ 281756451687366625 281474976710656 (-43) _
      (by decide) (by decide) (by decide) (by decide) (by decide) (by decide)
  have e6 : f2i (mkRat 8804889115230207 8796093022208) = 1000 := by
    decide
  show f2i (fl (durSeconds (1001 * Millisecond) * 1000)) * Millisecond
    = 1000 * Millisecond
  rw [e3, e4, e5, e6]

/-- C5 amended: the construction-then-offset round trip reproduces a
whole-millisecond duration of k milliseconds exactly whenever the three
float64 rounding steps of the pipeline are exact at k (conversion of the
nanosecond count, division by 1e9, multiplication by 1000); this holds
in particular at 1500 ms, but not for every whole-millisecond duration
(1001 ms loses a millisecond). -/
theorem playbackState_roundtrip_exact_when_rounding_free
    (tok : String) (act : PlayerActivity) (k : Int)
    (h0 : fl (mkRat (k * 1000000) 1) = mkRat (k * 1000000) 1)
    (h1 : fl (mkRat k 1000) = mkRat k 1000)
    (h2 : fl (mkRat k 1) = mkRat k 1) :
    (NewPlaybackState tok (k * Millisecond) act).Offset = k * Millisecond := by
  show f2i (fl (durSeconds (k * Millisecond) * 1000)) * Millisecond
    = k * Millisecond
  have hMs : (k * Millisecond : Int) = k * 1000000 := rfl
  unfold durSeconds
  rw [hMs, ← Rat.mkRat_one (k * 1000000), h0]
  have hdiv : mkRat (k * 1000000) 1 / 1000000000 = mkRat k 1000 := by
    rw [Rat.mkRat_one, Rat.mkRat_eq_div]
    push_cast
    rw [div_eq_div_iff (by norm_num) (by norm_num)]
    ring
  rw [hdiv, h1]
  have hmul : (mkRat k 1000 : Rat) * 1000 = mkRat k 1 := by
    rw [Rat.mkRat_one, Rat.mkRat_eq_div]
    field_simp
  rw [hmul, h2, Rat.mkRat_one, f2i_intCast]
  exact hMs

/-- Witness for the amended C5 at the 1500 ms round trip of the spec:
all three rounding steps are exact there and the offset read back is
exactly 1500 ms. -/
theorem playbackState_roundtrip_exact_when_rounding_free_witness :
    fl (mkRat (1500 * 1000000) 1) = mkRat (1500 * 1000000) 1 ∧
    fl (mkRat 1500 1000) = mkRat 1500 1000 ∧
    fl (mkRat 1500 1) = mkRat 1500 1 ∧
    (NewPlaybackState "tok" (1500 * Millisecond) "PLAYING").Offset
      = 1500 * Millisecond := by
  have h0 : fl (mkRat (1500 * 1000000) 1) = mkRat (1500 * 1000000) 1 :=
    fl_eq_of _ 1500000000 1 (-22) _ (by decide) (by decide) (by decide)
      (by decide) (by decide) (by decide)
  have h1 : fl (mkRat 1500 1000) = mkRat 1500 1000 :=
    fl_eq_of _ 3 2 (-52) _ (by decide) (by decide) (by decide)
      (by decide) (by decide) (by decide)
  have h2 : fl (mkRat 1500 1) = mkRat 1500 1 :=
    fl_eq_of _ 1500 1 (-42) _ (by decide) (by decide) (by decide)
      (by decide) (by decide) (by decide)
  exact ⟨h0, h1, h2,
    playbackState_roundtrip_exact_when_rounding_free "tok" "PLAYING" 1500 h0 h1 h2⟩

end Avs
